import Mathlib

/-!
# Verification of the ethogram report core

This development shallowly embeds the report-generation core of the
ethogram-api repository and proves properties of it.  The repository
contains two implementations of the same report pipeline:

* a TypeScript service (`src/services/excel.ts` / `email.ts`): functions
  `generateTimeSlots`, `convertToRelativeTime`, `resolveOtherField`,
  `formatCellContent`, `generateExcelWorkbook`, `sanitizeFilename`,
  `sendObservationEmail`;
* a Go service (`internal/services/excel_service.go`): functions
  `GenerateObservationExcel`, `convertToRelativeTime`, `formatCellContent`,
  `indexToColumn`, `parseInt`, `GenerateFilename`.

Definitions prefixed `ts` embed the TypeScript implementation, and
definitions prefixed `go` embed the Go implementation.  JavaScript `NaN`
values are modelled by `Option Int` (with `none` = NaN), and Go panics by
an `Option` result (with `none` = panic).
-/

namespace Ethogram

/-! ## String splitting

Models both JavaScript `String.prototype.split(':')` (used as
`time.split(':')`) and Go `strings.Split(s, ":")`: both return the list of
substrings between occurrences of the separator, and always return at
least one element. -/

/-- Split a character list at every occurrence of `c`. -/
def splitChar (c : Char) : List Char → List (List Char)
  | [] => [[]]
  | x :: xs =>
    if x = c then [] :: splitChar c xs
    else
      match splitChar c xs with
      | [] => [[x]]
      | y :: ys => (x :: y) :: ys

/-- Split a string at every `':'`, as `time.split(':')` /
`strings.Split(t, ":")` do. -/
def splitCols (s : String) : List String :=
  (splitChar ':' s.data).map String.mk

/-! ## Numeric parsing -/

/-- Value of a decimal digit, if `c` is one. -/
def decDigit? (c : Char) : Option Nat :=
  if '0' ≤ c ∧ c ≤ '9' then some (c.toNat - 48) else none

/-- Fold a digit list into a number; `none` if some character is not a
decimal digit. -/
def digitsVal (l : List Char) : Option Nat :=
  l.foldl (fun acc c => do
    let a ← acc
    let d ← decDigit? c
    pure (a * 10 + d)) (some 0)

/-- Models the JavaScript `Number(s)` conversion on the string shapes this
code meets: the empty string converts to `0`, a (possibly negated) decimal
numeral converts to its value, and anything else is NaN (`none`). -/
def jsNumber (s : String) : Option Int :=
  match s.data with
  | [] => some 0
  | '-' :: rest =>
    match rest with
    | [] => none
    | _ => (digitsVal rest).map (fun n => -(n : Int))
  | l => (digitsVal l).map (fun n => (n : Int))

/-- Value of the longest decimal-digit prefix of a character list. -/
def digitPrefixVal : List Char → Nat → Nat
  | [], acc => acc
  | c :: cs, acc =>
    match decDigit? c with
    | some d => digitPrefixVal cs (acc * 10 + d)
    | none => acc

/-- Models Go `parseInt` (excel service helper): `fmt.Sscanf(s, "%d", &n)`
scans a signed decimal prefix and leaves `n = 0` when nothing scans. -/
def goScanInt (s : String) : Int :=
  match s.data with
  | '-' :: rest => -(digitPrefixVal rest 0 : Int)
  | l => (digitPrefixVal l 0 : Int)

/-! ## NaN-propagating arithmetic helpers (JavaScript numbers) -/

/-- `a < b` in JavaScript: any comparison with NaN is false. -/
def jsLt (a b : Option Int) : Bool :=
  match a, b with
  | some x, some y => decide (x < y)
  | _, _ => false

/-- Indexing `arr[k] ?? 0` into a mapped array of JavaScript numbers:
a missing index is replaced by `0`, but a present NaN is kept (NaN is not
nullish). -/
def idxOrZero (l : List (Option Int)) (k : Nat) : Option Int :=
  (l.get? k).getD (some 0)

/-- Render a JavaScript number as `${n}` does: NaN prints as `"NaN"`. -/
def jsNumToString : Option Int → String
  | none => "NaN"
  | some n => toString n

/-- `s.padStart(2, '0')`. -/
def pad2 (s : String) : String :=
  String.mk (List.replicate (2 - s.length) '0') ++ s

/-! ## TypeScript time arithmetic (`src/services/excel.ts`) -/

/-- The `h * 60 + m` minutes computation that `generateTimeSlots` and
`convertToRelativeTime` both perform inline on a split time string:
`parts = t.split(':').map(Number)`, then `(parts[0] ?? 0) * 60 +
(parts[1] ?? 0)`. NaN (`none`) propagates. -/
def parseClockMinutes (t : String) : Option Int :=
  let parts := (splitCols t).map jsNumber
  do
    let h ← idxOrZero parts 0
    let m ← idxOrZero parts 1
    pure (h * 60 + m)

/-- The midnight-crossing adjustment: `if (end < start) end += 24 * 60`. -/
def adjustEnd (s e : Int) : Int :=
  if e < s then e + 1440 else e

/-- One slot label: `hours = Math.floor(minutes / 60) % 24`,
`mins = minutes % 60`, both rendered two-digit. JavaScript `Math.floor`
of a quotient is flooring division and `%` is truncating remainder. -/
def formatSlot (minutes : Int) : String :=
  pad2 (toString ((Int.fdiv minutes 60).tmod 24)) ++ ":" ++ pad2 (toString (minutes.tmod 60))

/-- The slot loop of `generateTimeSlots`, structured on a fuel argument
that bounds the number of remaining iterations (so that it reduces):
`for (let m = start; m <= end; m += 5)`. -/
def slotLoopAux : Nat → Int → Int → List Int
  | 0, _, _ => []
  | fuel + 1, m, e => if m ≤ e then m :: slotLoopAux fuel (m + 5) e else []

/-- The slot loop of `generateTimeSlots`:
`for (let m = start; m <= end; m += 5)`.  The fuel `(e + 5 - m).toNat`
strictly exceeds the number of iterations. -/
def slotLoop (m e : Int) : List Int :=
  slotLoopAux (e + 5 - m).toNat m e

/-- `generateTimeSlots(startTime, endTime)` from the TypeScript excel
service: empty (falsy) inputs short-circuit to `[]`; a NaN total on either
side makes the loop run zero times. -/
def tsGenerateTimeSlots (startTime endTime : String) : List String :=
  if startTime = "" then []
  else if endTime = "" then []
  else
    match parseClockMinutes startTime, parseClockMinutes endTime with
    | some s, some e => (slotLoop s (adjustEnd s e)).map formatSlot
    | _, _ => []

/-- `convertToRelativeTime(time, startTime)` from the TypeScript excel
service.  NaN components propagate into the rendered string. -/
def tsConvertToRelativeTime (time startTime : String) : String :=
  let totalTime := parseClockMinutes time
  let totalStart := parseClockMinutes startTime
  let totalTime' := if jsLt totalTime totalStart then totalTime.map (· + 1440) else totalTime
  let diff := do
    let a ← totalTime'
    let b ← totalStart
    pure (a - b)
  jsNumToString (diff.map (Int.fdiv · 60)) ++ ":" ++ pad2 (jsNumToString (diff.map (Int.tmod · 60)))

/-! ## Data model (TypeScript side)

`SubjectObservation` and `Metadata` from `src/services/excel.ts`.
Optional string fields (`location?: string` etc.) are `Option String`;
JavaScript truthiness on them holds exactly for a present, non-empty
string. -/

/-- Truthiness of a `string | undefined` value. -/
def jsTruthy : Option String → Bool
  | none => false
  | some s => !(s = "")

/-- `SubjectObservation` (TypeScript interface). `subjectType` is one of
`"foster_parent" | "baby" | "juvenile"`. -/
structure SubjectObservation where
  subjectType : String
  subjectId : String
  behavior : String
  location : Option String := none
  notes : Option String := none
  object : Option String := none
  objectOther : Option String := none
  animal : Option String := none
  animalOther : Option String := none
  interactionType : Option String := none
  interactionTypeOther : Option String := none
  description : Option String := none
deriving Repr, DecidableEq

/-- The `mode` union type `'live' | 'vod'`. -/
inductive Mode where
  | live
  | vod
deriving Repr, DecidableEq

/-- `Metadata` (TypeScript interface). -/
structure Metadata where
  observerName : String
  date : String
  startTime : String
  endTime : String
  aviary : String
  patient : String
  mode : Mode
deriving Repr, DecidableEq

/-- `Record<string, SubjectObservation[]>`: the time-slot map, as an
association list with the object's (unique) keys. -/
def TimeSlotMap := List (String × List SubjectObservation)

/-- Key lookup `observations[time]`: `undefined` (`none`) when absent. -/
def lookupSlot (m : TimeSlotMap) (k : String) : Option (List SubjectObservation) :=
  (m.find? (fun p => p.1 == k)).map (·.2)

/-- `resolveOtherField(value, otherValue)` from the TypeScript excel
service: `if (!value) return undefined;
return value === 'other' ? (otherValue || 'other') : value;`. -/
def resolveOtherField (value otherValue : Option String) : Option String :=
  if !(jsTruthy value) then none
  else if value = some "other" then
    (if jsTruthy otherValue then otherValue else some "other")
  else value

/-- `formatCellContent(observation)` from the TypeScript excel service. -/
def formatCellContent (o : SubjectObservation) : String :=
  let parts := ["x"]
  let parts := if jsTruthy o.location then parts ++ ["Loc: " ++ o.location.getD ""] else parts
  let objectValue := resolveOtherField o.object o.objectOther
  let parts := if jsTruthy objectValue then parts ++ ["Object: " ++ objectValue.getD ""] else parts
  let animalValue := resolveOtherField o.animal o.animalOther
  let parts := if jsTruthy animalValue then parts ++ ["Animal: " ++ animalValue.getD ""] else parts
  let interactionValue := resolveOtherField o.interactionType o.interactionTypeOther
  let parts :=
    if jsTruthy interactionValue then parts ++ ["Interaction: " ++ interactionValue.getD ""] else parts
  let parts := if jsTruthy o.description then parts ++ ["Description: " ++ o.description.getD ""] else parts
  let parts := if jsTruthy o.notes then parts ++ ["Notes: " ++ o.notes.getD ""] else parts
  if parts.length > 1 then String.intercalate "\n" parts else "x"

/-! ## Behavior catalog

`BEHAVIOR_ROW_MAPPING` (TypeScript), an ordered record of code → label;
the Go service's `behaviorOrder` slice and `behaviorLabels` map list the
same codes in the same order with the same labels. -/

/-- The ordered (code, label) pairs of `BEHAVIOR_ROW_MAPPING`. -/
def BEHAVIOR_ROW_MAPPING : List (String × String) :=
  [("eating_food_platform", "Eating - On Food Platform"),
   ("eating_elsewhere", "Eating - Elsewhere (Note Location)"),
   ("walking_ground", "Locomotion - Walking on Ground"),
   ("walking_perch", "Locomotion - Walking on Perch (Note Location)"),
   ("flying", "Locomotion - Flying"),
   ("jumping", "Locomotion - Jumping"),
   ("repetitive_locomotion", "Repetitive Locomotion (Same movement 3+ times in a row)"),
   ("drinking", "Drinking (Note source if not from the water bowl)"),
   ("bathing", "Bathing"),
   ("preening", "Preening/Grooming (Note Location)"),
   ("repetitive_preening", "Repetitive Preening/Feather Damage (Plucking, Mutilation, Etc.)"),
   ("nesting", "Nesting"),
   ("vocalizing", "Vocalizing"),
   ("resting_alert", "Resting on Perch/Ground - Alert (Note Location)"),
   ("resting_not_alert", "Resting on Perch/Ground - Not Alert (Note Location)"),
   ("resting_unknown", "Resting on Perch/Ground - Status Unknown (Note Location)"),
   ("interacting_object", "Interacting with Inanimate Object (Note Object)"),
   ("interacting_animal", "Interacting with Other Animal (Note Animal & Type of Interaction)"),
   ("aggression", "Aggression or Defensive Posturing"),
   ("not_visible", "Not Visible"),
   ("other", "Other")]

/-- `Object.keys(BEHAVIOR_ROW_MAPPING)` (insertion order); identical to
the Go service's `behaviorOrder` slice. -/
def behaviorRows : List String := BEHAVIOR_ROW_MAPPING.map Prod.fst

/-- `BEHAVIOR_ROW_MAPPING[behaviorValue]` for a present key; identical to
the Go service's `behaviorLabels` map. -/
def lookupBehaviorLabel (code : String) : String :=
  ((BEHAVIOR_ROW_MAPPING.find? (fun p => p.1 == code)).map (·.2)).getD ""

/-! ## TypeScript matrix builder

The grid that `generateExcelWorkbook` writes: time-slot columns (absolute
keys), the row-4 header labels (relative times), the column-A behavior
row labels written at rows `5 + i`, and the populated data cells, each at
worksheet coordinates (`row = 5 + behaviorIndex`,
`column = 2 + slotIndex`). -/

structure TsMatrix where
  columns : List String
  headers : List String
  rowLabels : List String
  cells : List (Nat × Nat × String)
deriving Repr, DecidableEq

/-- The matrix part of `generateExcelWorkbook(data)`: columns are
`generateTimeSlots(metadata.startTime, metadata.endTime)`; header labels
map each slot through `convertToRelativeTime(time, metadata.startTime)`;
one row per `BEHAVIOR_ROW_MAPPING` entry; a cell is written at
`(5 + index, timeIndex + 2)` when `observations[time]` is present and its
filtered matches for the row's behavior code are non-empty, holding
`formatCellContent(matchingObs[0])`. -/
def buildMatrix (metadata : Metadata) (observations : TimeSlotMap) : TsMatrix :=
  let timeSlots := tsGenerateTimeSlots metadata.startTime metadata.endTime
  { columns := timeSlots
    headers := timeSlots.map (fun time => tsConvertToRelativeTime time metadata.startTime)
    rowLabels := behaviorRows.map lookupBehaviorLabel
    cells :=
      behaviorRows.enum.flatMap (fun bi =>
        timeSlots.enum.filterMap (fun tj =>
          match lookupSlot observations tj.2 with
          | none => none
          | some subjectObservations =>
            match subjectObservations.filter (fun obs => obs.behavior == bi.2) with
            | [] => none
            | first :: _ => some (5 + bi.1, tj.1 + 2, formatCellContent first))) }

/-! ## Go renderer (`internal/services/excel_service.go`) -/

/-- `models.SubjectObservation` (Go): plain strings, zero value `""`. -/
structure GoSubjectObservation where
  subjectType : String := ""
  subjectId : String := ""
  behavior : String := ""
  location : String := ""
  notes : String := ""
  object : String := ""
  objectOther : String := ""
  animal : String := ""
  animalOther : String := ""
  interactionType : String := ""
  interactionTypeOther : String := ""
  description : String := ""
deriving Repr, DecidableEq

/-- `models.TimeSlots` (Go): `map[string][]SubjectObservation`, as an
association list with unique keys. -/
def GoTimeSlots := List (String × List GoSubjectObservation)

/-- Go map access `obs.TimeSlots[timeKey]`: the zero value (nil slice)
when the key is absent. -/
def goLookup (m : GoTimeSlots) (k : String) : List GoSubjectObservation :=
  ((m.find? (fun p => p.1 == k)).map (·.2)).getD []

/-- Lexicographic `≤` on character lists, by code point — the order
`sort.Strings` uses (bytewise; identical on the ASCII keys here). -/
def charListLe : List Char → List Char → Bool
  | [], _ => true
  | _ :: _, [] => false
  | a :: as, b :: bs => if a = b then charListLe as bs else decide (a.toNat < b.toNat)

/-- Insert into a sorted list of strings. -/
def insertSorted (x : String) : List String → List String
  | [] => [x]
  | y :: ys => if charListLe x.data y.data then x :: y :: ys else y :: insertSorted x ys

/-- `sort.Strings` (ascending lexicographic order). -/
def sortStrings (l : List String) : List String := l.foldr insertSorted []

/-- The column keys of `GenerateObservationExcel`: the map's own keys,
collected and sorted (`for timeKey := range obs.TimeSlots { ... };
sort.Strings(timeSlots)`). -/
def goColumns (m : GoTimeSlots) : List String := sortStrings (m.map Prod.fst)

/-- `formatCellContent(subject)` from the Go excel service, with its
inline "other"-resolution for object / animal / interaction type. -/
def goFormatCellContent (subject : GoSubjectObservation) : String :=
  let parts := ["x"]
  let parts := if subject.location ≠ "" then parts ++ ["Loc: " ++ subject.location] else parts
  let parts :=
    if subject.object ≠ "" then
      let objectValue :=
        if subject.object = "other" ∧ subject.objectOther ≠ "" then subject.objectOther
        else subject.object
      parts ++ ["Object: " ++ objectValue]
    else parts
  let parts :=
    if subject.animal ≠ "" then
      let animalValue :=
        if subject.animal = "other" ∧ subject.animalOther ≠ "" then subject.animalOther
        else subject.animal
      parts ++ ["Animal: " ++ animalValue]
    else parts
  let parts :=
    if subject.interactionType ≠ "" then
      let interactionValue :=
        if subject.interactionType = "other" ∧ subject.interactionTypeOther ≠ "" then
          subject.interactionTypeOther
        else subject.interactionType
      parts ++ ["Interaction: " ++ interactionValue]
    else parts
  let parts :=
    if subject.description ≠ "" then parts ++ ["Description: " ++ subject.description] else parts
  let parts := if subject.notes ≠ "" then parts ++ ["Notes: " ++ subject.notes] else parts
  if parts.length > 1 then String.intercalate "\n" parts else "x"

/-- The letter `string(rune('A' + r))` for `r < 26`. -/
def colLetter (r : Nat) : Char :=
  ['A', 'B', 'C', 'D', 'E', 'F', 'G', 'H', 'I', 'J', 'K', 'L', 'M',
   'N', 'O', 'P', 'Q', 'R', 'S', 'T', 'U', 'V', 'W', 'X', 'Y', 'Z'].getD r 'A'

/-- The loop of `indexToColumn`, structured on a fuel argument bounding
the iteration count (any `fuel ≥ index` is enough, as the index shrinks
by at least a factor each round): `for index > 0 { index--;
result = letter(index % 26) + result; index /= 26 }`. -/
def goIndexToColumnAux : Nat → Nat → List Char
  | 0, _ => []
  | _, 0 => []
  | fuel + 1, n + 1 => goIndexToColumnAux fuel (n / 26) ++ [colLetter (n % 26)]

/-- `indexToColumn(index)` from the Go excel service: 1-based bijective
base-26 Excel column names. -/
def goIndexToColumn (index : Nat) : String :=
  String.mk (goIndexToColumnAux index index)

/-- `fmt.Sprintf("%02d", n)`: zero-pad the decimal rendering to width 2
(the sign counts toward the width). -/
def goFmt02d (n : Int) : String := pad2 (toString n)

/-- `convertToRelativeTime(timeStr, startTimeStr)` from the Go excel
service.  Indexing `parts[1]` on a colon-free string panics (index out of
range); the panic is modelled by `none`. -/
def goConvertToRelativeTime (timeStr startTimeStr : String) : Option String :=
  let timeParts := splitCols timeStr
  let startParts := splitCols startTimeStr
  do
    let t0 ← timeParts.get? 0
    let t1 ← timeParts.get? 1
    let s0 ← startParts.get? 0
    let s1 ← startParts.get? 1
    let totalTimeMinutes := goScanInt t0 * 60 + goScanInt t1
    let totalStartMinutes := goScanInt s0 * 60 + goScanInt s1
    let totalTimeMinutes :=
      if totalTimeMinutes < totalStartMinutes then totalTimeMinutes + 1440 else totalTimeMinutes
    let diffMinutes := totalTimeMinutes - totalStartMinutes
    pure (toString (Int.tdiv diffMinutes 60) ++ ":" ++ goFmt02d (diffMinutes.tmod 60))

/-- The cells that the behavior-row loop of `GenerateObservationExcel`
writes: for each behavior (row `5 + i`) and each sorted time key (column
letter `indexToColumn(j + 2)`), a cell with `formatCellContent(subjects[0])`
when `len(subjects) > 0 && subjects[0].Behavior == behaviorValue`. -/
def goCells (m : GoTimeSlots) : List (String × Nat × String) :=
  behaviorRows.enum.flatMap (fun bi =>
    (goColumns m).enum.filterMap (fun tj =>
      match goLookup m tj.2 with
      | [] => none
      | s0 :: _ =>
        if s0.behavior == bi.2 then
          some (goIndexToColumn (tj.1 + 2), 5 + bi.1, goFormatCellContent s0)
        else none))

/-! ## Filenames -/

/-- The safe filename character class `[a-zA-Z0-9-_]` of
`sanitizeFilename` (TypeScript `src/utils/sanitize.ts` / email service). -/
def isSafeFilenameChar (c : Char) : Bool :=
  ('a' ≤ c ∧ c ≤ 'z') ∨ ('A' ≤ c ∧ c ≤ 'Z') ∨ ('0' ≤ c ∧ c ≤ '9') ∨ c = '-' ∨ c = '_'

/-- `sanitizeFilename(str)`: `str.replace(/[^a-zA-Z0-9-_]/g, '_')`. -/
def sanitizeFilename (s : String) : String :=
  String.mk (s.data.map (fun c => if isSafeFilenameChar c then c else '_'))

/-- The attachment filename built by `sendObservationEmail`:
`` `ethogram-${sanitizeFilename(patient)}-${sanitizeFilename(date)}.xlsx` ``. -/
def attachmentFilename (patient date : String) : String :=
  "ethogram-" ++ sanitizeFilename patient ++ "-" ++ sanitizeFilename date ++ ".xlsx"

/-- The character set kept by `GenerateFilename`'s `strings.Map` (Go):
letters, digits and hyphen; everything else is dropped. -/
def goFilenameKeep (c : Char) : Bool :=
  ('a' ≤ c ∧ c ≤ 'z') ∨ ('A' ≤ c ∧ c ≤ 'Z') ∨ ('0' ≤ c ∧ c ≤ '9') ∨ c = '-'

/-- The observer-name cleaning of `GenerateFilename`: replace spaces with
hyphens, then drop every character outside `[a-zA-Z0-9-]`. -/
def goCleanName (s : String) : String :=
  String.mk ((s.data.map (fun c => if c = ' ' then '-' else c)).filter goFilenameKeep)

/-- `GenerateFilename(obs)` from the Go excel service:
`WBS-Ethogram-<clean observer>-<date>-<first 8 id chars>.xlsx`. -/
def goGenerateFilename (observerName dateStr idStr : String) : String :=
  "WBS-Ethogram-" ++ goCleanName observerName ++ "-" ++ dateStr ++ "-" ++
    String.mk (idStr.data.take 8) ++ ".xlsx"

/-! ## Reference (spec-side) definitions and sample inputs -/

/-- The numeric value the Go renderer's column letters denote: bijective
base 26, each letter `c` contributing `c - 'A' + 1`. -/
def colVal (l : List Char) : Nat :=
  l.foldl (fun acc c => acc * 26 + (c.toNat - 64)) 0

/-- One optional annotation line of the cell format, included only when
its (resolved) value is non-empty. -/
def optLine (label : String) (v : Option String) : List String :=
  if jsTruthy v then [label ++ v.getD ""] else []

/-- The optional annotation lines of a cell, per the spec's fixed order:
location, resolved object, resolved animal, resolved interaction-kind,
description, notes — each only when its resolved value is non-empty. -/
def specCellLines (o : SubjectObservation) : List String :=
  optLine "Loc: " o.location ++
  optLine "Object: " (resolveOtherField o.object o.objectOther) ++
  optLine "Animal: " (resolveOtherField o.animal o.animalOther) ++
  optLine "Interaction: " (resolveOtherField o.interactionType o.interactionTypeOther) ++
  optLine "Description: " o.description ++
  optLine "Notes: " o.notes

/-- A foster-parent observation of `b` with no optional fields set. -/
def bareObs (b : String) : SubjectObservation :=
  { subjectType := "foster_parent", subjectId := "Sayyida", behavior := b }

/-- Sample metadata for a 10:00–10:05 session. -/
def sampleMetadata : Metadata :=
  { observerName := "Test Observer", date := "2025-11-29", startTime := "10:00",
    endTime := "10:05", aviary := "Main Aviary", patient := "Sayyida", mode := Mode.live }

/-- A Go-side observation of flying with no optional fields set. -/
def goFly : GoSubjectObservation :=
  { subjectType := "foster_parent", subjectId := "Sayyida", behavior := "flying" }

/-- TypeScript-side sample observations. -/
def tsFly : SubjectObservation := bareObs "flying"

def tsPreen : SubjectObservation := bareObs "preening"

/-- A slot list with two observations at 10:00 — the second of a
different behavior than the first. -/
def tsTwoObsMap : TimeSlotMap := [("10:00", [tsFly, tsPreen])]

/-- The same slot list truncated to its first observation. -/
def tsOneObsMap : TimeSlotMap := [("10:00", [tsFly])]

/-- A Go time-slot map whose only key lies before the session window. -/
def goEarlyKeyMap : GoTimeSlots := [("09:00", [goFly])]

/-- A Go time-slot map whose only key is on the hour. -/
def goOnGridMap : GoTimeSlots := [("10:00", [goFly])]

/-- A Go time-slot map whose only key is off the 5-minute grid. -/
def goOffGridMap : GoTimeSlots := [("10:07", [goFly])]

end Ethogram

namespace Ethogram

/-! Quick sanity checks of the embedding (kept as anonymous examples). -/

example : splitCols "14:05" = ["14", "05"] := by decide
example : splitCols "14" = ["14"] := by decide
example : jsNumber "05" = some 5 := by decide
example : jsNumber "aa" = none := by decide
example : parseClockMinutes "23:50" = some 1430 := by decide
example : tsGenerateTimeSlots "23:50" "00:10" =
    ["23:50", "23:55", "00:00", "00:05", "00:10"] := by decide
example : tsConvertToRelativeTime "00:05" "23:55" = "0:10" := by decide
example : tsConvertToRelativeTime "aa:10" "00:00" = "NaN:NaN" := by decide
example : tsGenerateTimeSlots "10:00" "10:10" = ["10:00", "10:05", "10:10"] := by decide
example : goIndexToColumn 1 = "A" := by decide
example : goIndexToColumn 27 = "AA" := by decide
example : goIndexToColumn 703 = "AAA" := by decide
example : goConvertToRelativeTime "00:05" "23:55" = some "0:10" := by decide
example : goConvertToRelativeTime "14" "00:00" = none := by decide
example : goGenerateFilename "Alice Smith" "2025-11-24" "550e8400-e29b-41d4" =
    "WBS-Ethogram-Alice-Smith-2025-11-24-550e8400.xlsx" := by decide
example : attachmentFilename "Sayyida?" "2025 11 24" =
    "ethogram-Sayyida_-2025_11_24.xlsx" := by decide
example :
    formatCellContent
      { bareObs "resting_alert" with location := some "12", notes := some "Alert" } =
    "x\nLoc: 12\nNotes: Alert" := by decide
example :
    goFormatCellContent
      { behavior := "interacting_object", object := "other", objectOther := "custom toy" } =
    "x\nObject: custom toy" := by decide
example : sortStrings ["10:05", "00:00", "23:55"] = ["00:00", "10:05", "23:55"] := by decide

/-! ## Shared helper lemmas -/

theorem colVal_append_singleton (l : List Char) (c : Char) :
    colVal (l ++ [c]) = colVal l * 26 + (c.toNat - 64) := by
  simp [colVal, List.foldl_append]

theorem colLetter_toNat : ∀ r < 26, (colLetter r).toNat = 65 + r := by decide

theorem colVal_goIndexToColumnAux : ∀ fuel n, n ≤ fuel →
    colVal (goIndexToColumnAux fuel n) = n := by
  intro fuel
  induction fuel with
  | zero =>
    intro n hn
    interval_cases n
    simp [goIndexToColumnAux, colVal]
  | succ fuel ih =>
    intro n hn
    match n with
    | 0 => simp [goIndexToColumnAux, colVal]
    | n + 1 =>
      have hdiv : n / 26 ≤ fuel := le_trans (Nat.div_le_self n 26) (Nat.lt_succ_iff.mp hn)
      have hmod : n % 26 < 26 := Nat.mod_lt _ (by omega)
      calc colVal (goIndexToColumnAux (fuel + 1) (n + 1))
          = colVal (goIndexToColumnAux fuel (n / 26) ++ [colLetter (n % 26)]) := rfl
        _ = colVal (goIndexToColumnAux fuel (n / 26)) * 26 + ((colLetter (n % 26)).toNat - 64) :=
            colVal_append_singleton _ _
        _ = (n / 26) * 26 + ((65 + n % 26) - 64) := by
            rw [ih _ hdiv, colLetter_toNat _ hmod]
        _ = n + 1 := by omega

/-- `colVal` inverts `goIndexToColumn`, for every index. -/
theorem colVal_goIndexToColumn (n : Nat) : colVal (goIndexToColumn n).data = n :=
  colVal_goIndexToColumnAux n n le_rfl

/-- The slot loop produces values in steps of exactly 5, whatever the
fuel. -/
theorem slotLoopAux_chain : ∀ fuel (m e : Int),
    List.Chain' (fun a b => b = a + 5) (slotLoopAux fuel m e) := by
  intro fuel
  induction fuel with
  | zero => intro m e; simp [slotLoopAux]
  | succ fuel ih =>
    intro m e
    show List.Chain' _ (if m ≤ e then m :: slotLoopAux fuel (m + 5) e else [])
    split
    · rw [List.chain'_cons']
      refine ⟨fun b hb => ?_, ih (m + 5) e⟩
      cases fuel with
      | zero => simp [slotLoopAux] at hb
      | succ fuel =>
        revert hb
        show _ ∈ (if m + 5 ≤ e then (m + 5) :: slotLoopAux fuel (m + 5 + 5) e else []).head? → _
        split <;> simp_all
    · exact List.chain'_nil

/-- Every value the slot loop produces is at most the end bound. -/
theorem slotLoopAux_le : ∀ fuel (m e : Int), ∀ x ∈ slotLoopAux fuel m e, x ≤ e := by
  intro fuel
  induction fuel with
  | zero => intro m e x hx; simp [slotLoopAux] at hx
  | succ fuel ih =>
    intro m e x hx
    revert hx
    show x ∈ (if m ≤ e then m :: slotLoopAux fuel (m + 5) e else []) → _
    split
    case isTrue hme =>
      intro hx
      rcases List.mem_cons.mp hx with rfl | hx'
      · exact hme
      · exact ih (m + 5) e x hx'
    · simp

/-- The slot loop starts at its start bound when the range is
non-empty. -/
theorem slotLoop_head (m e : Int) (h : m ≤ e) : (slotLoop m e).head? = some m := by
  unfold slotLoop
  have h5 : (e + 5 - m).toNat = ((e + 5 - m).toNat - 1) + 1 := by omega
  rw [h5]
  show (if m ≤ e then m :: slotLoopAux _ (m + 5) e else []).head? = some m
  simp [h]

/-- `splitChar` on a separator-free list yields that list alone. -/
theorem splitChar_not_mem {c : Char} : ∀ {l : List Char}, c ∉ l → splitChar c l = [l] := by
  intro l
  induction l with
  | nil => intro; rfl
  | cons x xs ih =>
    intro h
    have hx : ¬(x = c) := fun hxc => h (hxc ▸ List.mem_cons_self x xs)
    have hxs : c ∉ xs := fun hm => h (List.mem_cons_of_mem x hm)
    simp only [splitChar, if_neg hx, ih hxs]

/-- `splitChar` at the first separator, when the prefix is
separator-free. -/
theorem splitChar_append_sep {c : Char} : ∀ {l : List Char} (r : List Char), c ∉ l →
    splitChar c (l ++ c :: r) = l :: splitChar c r := by
  intro l
  induction l with
  | nil => intro r _; simp [splitChar]
  | cons x xs ih =>
    intro r h
    have hx : ¬(x = c) := fun hxc => h (hxc ▸ List.mem_cons_self x xs)
    have hxs : c ∉ xs := fun hm => h (List.mem_cons_of_mem x hm)
    show splitChar c (x :: (xs ++ c :: r)) = (x :: xs) :: splitChar c r
    rw [splitChar, if_neg hx, ih r hxs]

/-- Rebuilding a string from its character data. -/
theorem string_mk_data (s : String) : String.mk s.data = s := rfl

/-- Character data of an appended string. -/
theorem string_data_append (a b : String) : (a ++ b).data = a.data ++ b.data := rfl

/-- A colon-free time string parses the same minutes as itself with
`":00"` appended: the missing minutes component reads as zero. -/
theorem parseClockMinutes_missing (t : String) (h : ':' ∉ t.data) :
    parseClockMinutes t = parseClockMinutes (t ++ ":00") := by
  have hsplit : splitCols t = [String.mk t.data] := by
    simp [splitCols, splitChar_not_mem h]
  have hsplit2 : splitCols (t ++ ":00") = [String.mk t.data, "00"] := by
    have : (t ++ ":00").data = t.data ++ ':' :: ['0', '0'] := string_data_append t ":00"
    simp [splitCols, this, splitChar_append_sep _ h, splitChar]
  have h00 : jsNumber "00" = some 0 := by decide
  simp [parseClockMinutes, hsplit, hsplit2, idxOrZero, h00]

/-! ## Claims -/

/-- C6: for every primary/override pair, `resolveOtherField` returns the
absent result when the primary is empty or absent; the override when the
primary is the sentinel `"other"` and the override is non-empty; the
literal `"other"` when the primary is `"other"` and the override is
empty; and the primary unchanged in every other case, the override being
ignored there. -/
theorem resolveOtherField_cases (p o : Option String) :
    (jsTruthy p = false → resolveOtherField p o = none) ∧
    (p = some "other" → jsTruthy o = true → resolveOtherField p o = o) ∧
    (p = some "other" → jsTruthy o = false → resolveOtherField p o = some "other") ∧
    (jsTruthy p = true → p ≠ some "other" → resolveOtherField p o = p) := by
  have hother : jsTruthy (some "other") = true := by decide
  refine ⟨fun h => ?_, fun hp ho => ?_, fun hp ho => ?_, fun hp hne => ?_⟩
  · simp [resolveOtherField, h]
  · subst hp; simp [resolveOtherField, hother, ho]
  · subst hp; simp [resolveOtherField, hother, ho]
  · simp [resolveOtherField, hp, hne]

/-- Witness for C6: the four cases at concrete inputs. -/
theorem resolveOtherField_cases_witness :
    resolveOtherField (some "") (some "z") = none ∧
    resolveOtherField (some "other") (some "X") = some "X" ∧
    resolveOtherField (some "other") none = some "other" ∧
    resolveOtherField (some "foo") (some "bar") = some "foo" :=
  ⟨(resolveOtherField_cases (some "") (some "z")).1 (by decide),
   (resolveOtherField_cases (some "other") (some "X")).2.1 rfl (by decide),
   (resolveOtherField_cases (some "other") none).2.2.1 rfl (by decide),
   (resolveOtherField_cases (some "foo") (some "bar")).2.2.2 (by decide) (by decide)⟩

/-- C8: for every metadata and time-slot map (the empty map included),
the matrix has exactly one row per `BEHAVIOR_ROW_MAPPING` entry, in
catalog order, labeled with that entry's label — rows for unused
behaviors included. -/
theorem buildMatrix_rows_catalog (metadata : Metadata) (observations : TimeSlotMap) :
    (buildMatrix metadata observations).rowLabels = BEHAVIOR_ROW_MAPPING.map Prod.snd ∧
    (buildMatrix metadata observations).rowLabels.length = BEHAVIOR_ROW_MAPPING.length := by
  constructor
  · show behaviorRows.map lookupBehaviorLabel = BEHAVIOR_ROW_MAPPING.map Prod.snd
    decide
  · show (behaviorRows.map lookupBehaviorLabel).length = BEHAVIOR_ROW_MAPPING.length
    decide

/-- C10: `indexToColumn` produces the standard bijective base-26 Excel
column names (1 → "A", 26 → "Z", 27 → "AA", 52 → "AZ", 702 → "ZZ",
703 → "AAA") and is injective on positive integers, so distinct column
indices never collide. -/
theorem goIndexToColumn_spec :
    (goIndexToColumn 1 = "A" ∧ goIndexToColumn 26 = "Z" ∧ goIndexToColumn 27 = "AA" ∧
      goIndexToColumn 52 = "AZ" ∧ goIndexToColumn 702 = "ZZ" ∧ goIndexToColumn 703 = "AAA") ∧
    ∀ m n : Nat, 0 < m → 0 < n → goIndexToColumn m = goIndexToColumn n → m = n := by
  refine ⟨by decide, fun m n _ _ h => ?_⟩
  have h2 : colVal (goIndexToColumn m).data = colVal (goIndexToColumn n).data := by rw [h]
  rwa [colVal_goIndexToColumn, colVal_goIndexToColumn] at h2

/-- Witness for C10: injectivity applied at a concrete positive index. -/
theorem goIndexToColumn_spec_witness : 0 < 27 ∧ 27 = 27 :=
  ⟨by decide, goIndexToColumn_spec.2 27 27 (by decide) (by decide) rfl⟩

/-- C7: for every observation, the cell formatter returns the
newline-join of the line `"x"` followed by the optional annotation lines
in their fixed order, and exactly `"x"` when no optional line applies. -/
theorem formatCellContent_spec (o : SubjectObservation) :
    formatCellContent o = String.intercalate "\n" ("x" :: specCellLines o) ∧
    (specCellLines o = [] → formatCellContent o = "x") := by
  have hmain : formatCellContent o = String.intercalate "\n" ("x" :: specCellLines o) := by
    unfold formatCellContent specCellLines optLine
    by_cases h1 : jsTruthy o.location = true <;>
      by_cases h2 : jsTruthy (resolveOtherField o.object o.objectOther) = true <;>
      by_cases h3 : jsTruthy (resolveOtherField o.animal o.animalOther) = true <;>
      by_cases h4 : jsTruthy (resolveOtherField o.interactionType o.interactionTypeOther) = true <;>
      by_cases h5 : jsTruthy o.description = true <;>
      by_cases h6 : jsTruthy o.notes = true <;>
      simp [h1, h2, h3, h4, h5, h6, String.intercalate] <;> rfl
  refine ⟨hmain, fun hempty => ?_⟩
  rw [hmain, hempty]
  rfl

/-- Witness for C7: an observation with no optional fields set formats to
exactly `"x"`. -/
theorem formatCellContent_spec_witness : formatCellContent (bareObs "flying") = "x" :=
  (formatCellContent_spec (bareObs "flying")).2 (by decide)

/-- C9 counterexample: the Go implementation's generated attachment
filename does not follow the `ethogram-<subject>-<date>.xlsx` pattern at
a concrete observation (observer "Alice Smith", date 2025-11-24, the
sample UUID, subject "Sayyida" — the patient both implementations use). -/
theorem goGenerateFilename_counterexample :
    goGenerateFilename "Alice Smith" "2025-11-24" "550e8400-e29b-41d4-a716-446655440000" =
      "WBS-Ethogram-Alice-Smith-2025-11-24-550e8400.xlsx" ∧
    goGenerateFilename "Alice Smith" "2025-11-24" "550e8400-e29b-41d4-a716-446655440000" ≠
      attachmentFilename "Sayyida" "2025-11-24" ∧
    attachmentFilename "Sayyida" "2025-11-24" = "ethogram-Sayyida-2025-11-24.xlsx" := by
  refine ⟨by decide, by decide, by decide⟩

/-- C9 (amended): the TypeScript email service's attachment filename is
exactly `"ethogram-" ++ sanitized(subject) ++ "-" ++ sanitized(date) ++
".xlsx"`, where sanitization maps every character outside letters,
digits, hyphen and underscore to an underscore and keeps the rest. -/
theorem attachmentFilename_spec (patient date : String) :
    attachmentFilename patient date =
      "ethogram-" ++ sanitizeFilename patient ++ "-" ++ sanitizeFilename date ++ ".xlsx" ∧
    (sanitizeFilename patient).data =
      patient.data.map (fun c => if isSafeFilenameChar c then c else '_') := by
  exact ⟨rfl, rfl⟩

/-- C4: for valid start/end times (parsing to in-range minute totals),
the slot enumeration is the arithmetic 5-minute progression from the
start total up to the (midnight-adjusted) end total, rendered through the
wall-clock formatter: it is strictly increasing in elapsed minutes with
successive elements exactly 5 apart, begins at start, ends at or before
the adjusted end, the adjustment adds 1440 exactly when end < start, and
the 23:50–00:10 example renders with a modulo-24-hour wrap. -/
theorem tsGenerateTimeSlots_spec (start endT : String) (s e : Int)
    (hstart : start ≠ "") (hend : endT ≠ "")
    (hs : parseClockMinutes start = some s) (he : parseClockMinutes endT = some e)
    (hs0 : 0 ≤ s) (hs1 : s < 1440) (he0 : 0 ≤ e) (he1 : e < 1440) :
    tsGenerateTimeSlots start endT = (slotLoop s (adjustEnd s e)).map formatSlot ∧
    List.Chain' (fun a b => b = a + 5) (slotLoop s (adjustEnd s e)) ∧
    (slotLoop s (adjustEnd s e)).head? = some s ∧
    (∀ x ∈ slotLoop s (adjustEnd s e), x ≤ adjustEnd s e) ∧
    (e < s → adjustEnd s e = e + 1440) ∧ (s ≤ e → adjustEnd s e = e) ∧
    tsGenerateTimeSlots "23:50" "00:10" = ["23:50", "23:55", "00:00", "00:05", "00:10"] := by
  have hse : s ≤ adjustEnd s e := by
    unfold adjustEnd
    split <;> omega
  refine ⟨?_, slotLoopAux_chain _ s (adjustEnd s e), slotLoop_head s (adjustEnd s e) hse,
    slotLoopAux_le _ s (adjustEnd s e), fun h => by unfold adjustEnd; split <;> omega,
    fun h => by unfold adjustEnd; split <;> omega, by decide⟩
  simp [tsGenerateTimeSlots, hstart, hend, hs, he]

/-- Witness for C4: the specification applied at the midnight-crossing
example start 23:50, end 00:10. -/
theorem tsGenerateTimeSlots_spec_witness :
    tsGenerateTimeSlots "23:50" "00:10" = ["23:50", "23:55", "00:00", "00:05", "00:10"] :=
  (tsGenerateTimeSlots_spec "23:50" "00:10" 1430 10 (by decide) (by decide) (by decide)
    (by decide) (by decide) (by decide) (by decide) (by decide)).2.2.2.2.2.2

/-- C5 counterexample: a non-numeric hour component is not treated as
zero — it produces NaN output (`"NaN:NaN"` instead of the
treat-as-zero result `"0:10"`, and an empty slot list) — and the Go
`convertToRelativeTime` panics (models as `none`) on a time string whose
minutes component is missing. -/
theorem time_arith_unparsable_counterexample :
    tsConvertToRelativeTime "aa:10" "00:00" = "NaN:NaN" ∧
    tsConvertToRelativeTime "00:10" "00:00" = "0:10" ∧
    ("NaN:NaN" : String) ≠ "0:10" ∧
    tsGenerateTimeSlots "aa:00" "00:10" = [] ∧
    goConvertToRelativeTime "14" "00:00" = none := by
  refine ⟨by decide, by decide, by decide, by decide, by decide⟩

/-- C5 (amended): the TypeScript time-arithmetic functions are total and
treat an absent minutes component as zero (a colon-free time behaves as
that time with `":00"` appended), while the Go `convertToRelativeTime`
panics on the same colon-free input; non-numeric components yield
NaN-propagated output rather than being treated as zero. -/
theorem time_arith_missing_component (t s : String) (h : ':' ∉ t.data) (ht : t ≠ "") :
    tsConvertToRelativeTime t s = tsConvertToRelativeTime (t ++ ":00") s ∧
    tsGenerateTimeSlots t s = tsGenerateTimeSlots (t ++ ":00") s ∧
    goConvertToRelativeTime t s = none := by
  have hpcm := parseClockMinutes_missing t h
  have hne : t ++ ":00" ≠ "" := by
    intro habs
    have : (t ++ ":00").data = [] := by rw [habs]
    rw [string_data_append] at this
    simp at this
  refine ⟨?_, ?_, ?_⟩
  · unfold tsConvertToRelativeTime
    rw [hpcm]
  · unfold tsGenerateTimeSlots
    rw [hpcm]
    simp [ht, hne]
  · have hsplit : splitCols t = [String.mk t.data] := by
      simp [splitCols, splitChar_not_mem h]
    simp [goConvertToRelativeTime, hsplit]

/-- Witness for C5: the amended claim applied at the colon-free time
string "14". -/
theorem time_arith_missing_component_witness :
    tsConvertToRelativeTime "14" "00:00" = tsConvertToRelativeTime ("14" ++ ":00") "00:00" ∧
    tsGenerateTimeSlots "14" "00:00" = tsGenerateTimeSlots ("14" ++ ":00") "00:00" ∧
    goConvertToRelativeTime "14" "00:00" = none :=
  time_arith_missing_component "14" "00:00" (by decide) (by decide)

/-- Filtering out an association-list key other than the looked-up one
does not change the lookup. -/
theorem find?_filter_ne (k t : String) (h : t ≠ k) :
    ∀ (m : List (String × List SubjectObservation)),
      List.find? (fun p => p.1 == t) (List.filter (fun p => p.1 != k) m)
        = List.find? (fun p => p.1 == t) m := by
  intro m
  induction m with
  | nil => rfl
  | cons p ps ih =>
    rw [List.filter_cons]
    cases hpt : (p.1 == t) with
    | true =>
      have hpk : (p.1 != k) = true := by
        have hp1 : p.1 = t := by simpa using hpt
        simp [hp1, h]
      rw [if_pos hpk]
      simp [List.find?, hpt]
    | false =>
      cases hpk : (p.1 != k) with
      | true => simp [List.find?, hpt, ih]
      | false =>
        rw [if_neg (by simp), ih]
        simp [List.find?, hpt]

theorem lookupSlot_filter (m : TimeSlotMap) (k t : String) (h : t ≠ k) :
    lookupSlot (List.filter (fun p => p.1 != k) m) t = lookupSlot m t := by
  unfold lookupSlot
  rw [find?_filter_ne k t h m]

/-- C1 counterexample: the Go renderer's column sequence is the sorted
key set of the time-slot map, not the 5-minute enumeration of the
session window: for a 10:00–10:05 session whose map holds the single
key "09:00", the Go columns are `["09:00"]` while the enumeration is
`["10:00", "10:05"]`; changing the map's keys changes the Go columns. -/
theorem goColumns_from_map_keys_counterexample :
    goColumns goEarlyKeyMap = ["09:00"] ∧
    tsGenerateTimeSlots "10:00" "10:05" = ["10:00", "10:05"] ∧
    goColumns goEarlyKeyMap ≠ tsGenerateTimeSlots "10:00" "10:05" ∧
    goColumns goOnGridMap ≠ goColumns goEarlyKeyMap := by
  refine ⟨by decide, by decide, by decide, by decide⟩

/-- C1 (amended): the TypeScript matrix builder's columns are exactly
the 5-minute enumeration of the session window, displayed through the
relative-duration conversion, and do not depend on the time-slot map at
all. -/
theorem buildMatrix_columns_enumeration (metadata : Metadata) (m m' : TimeSlotMap) :
    (buildMatrix metadata m).columns = tsGenerateTimeSlots metadata.startTime metadata.endTime ∧
    (buildMatrix metadata m).headers =
      (tsGenerateTimeSlots metadata.startTime metadata.endTime).map
        (fun time => tsConvertToRelativeTime time metadata.startTime) ∧
    (buildMatrix metadata m).columns = (buildMatrix metadata m').columns ∧
    (buildMatrix metadata m).headers = (buildMatrix metadata m').headers := by
  exact ⟨rfl, rfl, rfl, rfl⟩

/-- C3 counterexample: in the Go renderer an off-grid map key ("10:07")
produces its own column and its own populated cell instead of being
dropped. -/
theorem goColumns_offgrid_key_counterexample :
    ("10:07" ∉ tsGenerateTimeSlots "10:00" "10:10") ∧
    goColumns goOffGridMap = ["10:07"] ∧
    goCells goOffGridMap = [("B", 9, "x")] := by
  refine ⟨by decide, by decide, by decide⟩

/-- C3 (amended): in the TypeScript matrix builder, a map key that is
not among the enumerated slots contributes nothing: removing all entries
under such a key leaves the built matrix unchanged (and building is a
total function, so no error arises either). -/
theorem buildMatrix_offgrid_key_ignored (metadata : Metadata) (m : TimeSlotMap) (k : String)
    (hk : k ∉ tsGenerateTimeSlots metadata.startTime metadata.endTime) :
    buildMatrix metadata (List.filter (fun p => p.1 != k) m) = buildMatrix metadata m := by
  simp only [buildMatrix]
  congr 1
  apply List.flatMap_congr
  intro bi _
  apply List.filterMap_congr
  intro tj htj
  have htmem : tj.2 ∈ tsGenerateTimeSlots metadata.startTime metadata.endTime := by
    have := List.mem_enum_iff_getElem?.mp htj
    exact List.getElem?_mem this
  have hne : tj.2 ≠ k := fun he => hk (he ▸ htmem)
  rw [lookupSlot_filter m k tj.2 hne]

/-- Witness for C3: removing the off-grid key "10:07" from a map leaves
the 10:00–10:05 matrix unchanged. -/
theorem buildMatrix_offgrid_key_ignored_witness :
    buildMatrix sampleMetadata
        (List.filter (fun p => p.1 != "10:07") [("10:07", [tsFly])]) =
      buildMatrix sampleMetadata [("10:07", [tsFly])] :=
  buildMatrix_offgrid_key_ignored sampleMetadata [("10:07", [tsFly])] "10:07" (by decide)

/-- The Go column set does not change when each slot list is truncated
to its first element. -/
theorem goColumns_take_one (m : GoTimeSlots) :
    goColumns (m.map (fun p => (p.1, p.2.take 1))) = goColumns m := by
  unfold goColumns
  rw [List.map_map]
  rfl

/-- Go map lookup after truncating every slot list to its first
element. -/
theorem goLookup_take_one (k : String) : ∀ (m : GoTimeSlots),
    goLookup (m.map (fun p => (p.1, p.2.take 1))) k = (goLookup m k).take 1 := by
  intro m
  induction m with
  | nil => rfl
  | cons p ps ih =>
    show goLookup ((p.1, p.2.take 1) :: ps.map _) k = _
    unfold goLookup
    cases hpk : (p.1 == k) with
    | true => simp [List.find?, hpk]
    | false =>
      simp only [List.find?, hpk]
      have ih' := ih
      unfold goLookup at ih'
      exact ih'

/-- C2 (amended): the Go renderer considers only the first element of
each slot's observation list: truncating every list to its first element
leaves the produced cells unchanged (the TypeScript builder instead uses
the first element whose behavior matches the row — see the
counterexample). -/
theorem goCells_first_element_only (m : GoTimeSlots) :
    goCells (m.map (fun p => (p.1, p.2.take 1))) = goCells m := by
  unfold goCells
  rw [goColumns_take_one]
  apply List.flatMap_congr
  intro bi _
  apply List.filterMap_congr
  intro tj _
  rw [goLookup_take_one]
  cases goLookup m tj.2 with
  | nil => rfl
  | cons s0 rest => rfl

/-- C2 counterexample: in the TypeScript builder, for a 10:00–10:05
session whose 10:00 slot holds `[flying, preening]`, the preening row
(row 14) receives a cell from the list's second element — removing that
second element removes the cell — so an observation at index ≥ 1 does
contribute. -/
theorem tsCells_second_element_contributes :
    (buildMatrix sampleMetadata tsTwoObsMap).cells = [(9, 2, "x"), (14, 2, "x")] ∧
    (buildMatrix sampleMetadata tsOneObsMap).cells = [(9, 2, "x")] ∧
    (buildMatrix sampleMetadata tsTwoObsMap).cells ≠
      (buildMatrix sampleMetadata tsOneObsMap).cells ∧
    tsFly.behavior = "flying" ∧ tsPreen.behavior = "preening" := by
  refine ⟨by decide, by decide, by decide, rfl, rfl⟩

end Ethogram
